import Mathlib

/-
Verification of the extraction-and-concurrent-audit pipeline of the
mcp_sec_scanner repository.

The development shallowly embeds the two core source files:
  * `parse_python.py` — the `ToolFunctionExtractor` class: decorator-name
    resolution over the Python `ast`, source-span capture, docstring and
    signature extraction for functions decorated with `@mcp.tool()`;
  * `scan_code.py` — the `ToolAnalyzer` class: per-tool LLM analysis with
    retry/backoff, the bounded thread-pool audit pass, repository scanning,
    CSV-driven batch orchestration with resume-on-existing-artifact, and
    the command-line entry point.

External capabilities (the OpenAI client, `os.walk`, `os.path.relpath`,
file reading, `json.dump` serialization, the thread scheduler's completion
order, and the random jitter draw) are modelled as explicit parameters;
everything else is translated directly from the source.
-/

namespace McpScan

/-! ### Python string primitives

Lean core's `String.endsWith` and friends do not reduce in the kernel, so the
Python string operations used by the source (`str.endswith`, `in`,
`str.lower`) are modelled directly over the character data. -/

/-- `chars_eq_pre p l` is true when `p` is an initial segment of `l`. -/
def chars_eq_pre : List Char → List Char → Bool
  | [], _ => true
  | _ :: _, [] => false
  | a :: as, b :: bs => a == b && chars_eq_pre as bs

/-- Python `s.endswith(t)`. -/
def str_endswith (s t : String) : Bool :=
  chars_eq_pre t.data.reverse s.data.reverse

/-- `chars_in n h` is true when `n` occurs contiguously inside `h`. -/
def chars_in (n : List Char) : List Char → Bool
  | [] => chars_eq_pre n []
  | c :: hs => chars_eq_pre n (c :: hs) || chars_in n hs

/-- Python `t in s` (substring test). -/
def str_in (t s : String) : Bool := chars_in t.data s.data

/-- Python `s.lower()` (ASCII view, which is all the source feeds it). -/
def py_lower (s : String) : String := String.mk (s.data.map Char.toLower)

/-! ### `parse_python.py` — the syntax-tree model

Decorator expressions are modelled by the shapes `_get_decorator_name`
distinguishes: `ast.Name`, `ast.Attribute`, `ast.Call`, and a catch-all for
every other expression kind. -/

/-- Python `ast` expression shapes relevant to decorator resolution. -/
inductive PyExpr
  | name (id : String)
  | attr (value : PyExpr) (attrName : String)
  | call (func : PyExpr) (argCount : Nat)
  | otherExpr
deriving DecidableEq

/-- `ToolFunctionExtractor._get_decorator_name`: resolve a decorator
expression to a dotted qualified name.  A `Call` resolves through its callee
when the callee is an `Attribute` or a `Name`; any unrecognized shape
(including a call of a call) falls through to `""`. -/
def get_decorator_name : PyExpr → String
  | PyExpr.call (PyExpr.attr v a) _ => get_decorator_name v ++ "." ++ a
  | PyExpr.call (PyExpr.name i) _ => i
  | PyExpr.call PyExpr.otherExpr _ => ""
  | PyExpr.call (PyExpr.call _ _) _ => ""
  | PyExpr.attr v a => get_decorator_name v ++ "." ++ a
  | PyExpr.name i => i
  | PyExpr.otherExpr => ""

/-- `ToolFunctionExtractor._is_mcp_tool_decorator`. -/
def is_mcp_tool_decorator (d : PyExpr) : Bool :=
  get_decorator_name d == "mcp.tool"

/-- A decorator node: its expression together with its `lineno` /
`end_lineno` source positions (1-indexed, as in the Python `ast`). -/
structure PyDecorator where
  expr : PyExpr
  lineno : Nat
  end_lineno : Nat
deriving DecidableEq

/-- An `ast.arg` node: the parameter name and, when present, the unparsed
source text of its type annotation (`ast.unparse(arg.annotation)` is
represented by the stored text). -/
structure PyArg where
  arg : String
  ann : Option String
deriving DecidableEq

/-- An `ast.arguments` node, with every parameter group of the Python
grammar. `_get_function_signature` reads only the `args` group. -/
structure PyArguments where
  posonlyargs : List PyArg
  args : List PyArg
  vararg : Option PyArg
  kwonlyargs : List PyArg
  kwarg : Option PyArg
deriving DecidableEq

/-- A function-definition node (`ast.FunctionDef` / `ast.AsyncFunctionDef`
carry the same fields).  `body_docstring` models `ast.get_docstring`:
`some s` exactly when the first body statement is a bare string literal.
`returns` is the unparsed source text of the return annotation. -/
structure PyFunctionDef where
  name : String
  decorator_list : List PyDecorator
  args : PyArguments
  returns : Option String
  body_docstring : Option String
  lineno : Nat
  end_lineno : Nat
deriving DecidableEq

/-- A node yielded by `ast.walk`, as classified by the `isinstance` checks
in `extract_tool_functions`. -/
inductive PyNode
  | functionDef (f : PyFunctionDef)
  | asyncFunctionDef (f : PyFunctionDef)
  | otherNode
deriving DecidableEq

/-- Python list slice `l[i:j]` for `0 ≤ i, j`. -/
def pySlice (l : List String) (i j : Nat) : List String :=
  (l.drop i).take (j - i)

/-- `ToolFunctionExtractor._get_function_source`: each decorator's own line
range `[decorator.lineno - 1 : decorator.end_lineno]`, in decorator-list
order, followed by the function's own lines
`[node.lineno - 1 : node.end_lineno]`, joined with newlines.
`source_lines` models `self.source_code.splitlines()`. -/
def get_function_source (source_lines : List String) (node : PyFunctionDef) : String :=
  let lines := pySlice source_lines (node.lineno - 1) node.end_lineno
  let decorator_lines :=
    (node.decorator_list.map (fun d => pySlice source_lines (d.lineno - 1) d.end_lineno)).flatten
  String.intercalate "\n" (decorator_lines ++ lines)

/-- `ToolFunctionExtractor._get_docstring`: `ast.get_docstring` result, or
`""` when absent. -/
def get_docstring (node : PyFunctionDef) : String :=
  match node.body_docstring with
  | some s => s
  | none => ""

/-- The dictionary built by `_get_function_signature`.  `parameters` models
the insertion-ordered Python dict `params` as a list of
`(param_name, param_type)` pairs (duplicate parameter names are a Python
`SyntaxError`, so keys are distinct in any parsed file). -/
structure PySignature where
  parameters : List (String × String)
  return_type : String
deriving DecidableEq

/-- `ToolFunctionExtractor._get_function_signature`: iterates
`node.args.args` only; a missing annotation is stored as `""`. -/
def get_function_signature (node : PyFunctionDef) : PySignature :=
  { parameters := node.args.args.map (fun a =>
      (a.arg, match a.ann with | some t => t | none => ""))
  , return_type := match node.returns with | some t => t | none => "" }

/-- One entry of the list returned by `extract_tool_functions`, plus the
`file_path` key that `ToolAnalyzer.analyze_repo` attaches afterwards
(`none` until then — the Python dict has no such key at extraction time). -/
structure ToolInfo where
  name : String
  source_code : String
  docstring : String
  signature : PySignature
  line_number : Nat
  file_path : Option String
deriving DecidableEq

/-- The decorator scan of `extract_tool_functions`: the inner
`for decorator in node.decorator_list: if ...: append; break` records the
function exactly when some decorator passes `_is_mcp_tool_decorator`. -/
def function_is_marked (f : PyFunctionDef) : Bool :=
  f.decorator_list.any (fun d => is_mcp_tool_decorator d.expr)

/-- The `function_info` dictionary built for a marked function. -/
def make_tool_info (source_lines : List String) (f : PyFunctionDef) : ToolInfo :=
  { name := f.name
  , source_code := get_function_source source_lines f
  , docstring := get_docstring f
  , signature := get_function_signature f
  , line_number := f.lineno
  , file_path := none }

/-- The `isinstance(node, ast.FunctionDef) or isinstance(node,
ast.AsyncFunctionDef)` test: both kinds expose the same record. -/
def node_function : PyNode → Option PyFunctionDef
  | PyNode.functionDef f => some f
  | PyNode.asyncFunctionDef f => some f
  | PyNode.otherNode => none

/-- `ToolFunctionExtractor.extract_tool_functions`: walk every node, keep
marked function definitions (sync or async), in walk order. -/
def extract_tool_functions (source_lines : List String) (walk_nodes : List PyNode) :
    List ToolInfo :=
  walk_nodes.filterMap (fun n =>
    match node_function n with
    | some f => if function_is_marked f then some (make_tool_info source_lines f) else none
    | none => none)

/-- A candidate file as the extractor sees it: its split source lines and
the result of `ast.parse` (+ `ast.walk`), which fails on a syntax error. -/
structure PyFile where
  source_lines : List String
  parse_result : Except String (List PyNode)

/-- Module-level `extract_tools`: construct the extractor (which runs
`ast.parse`, propagating its failure) and extract. -/
def extract_tools (file : PyFile) : Except String (List ToolInfo) :=
  match file.parse_result with
  | Except.error e => Except.error e
  | Except.ok nodes => Except.ok (extract_tool_functions file.source_lines nodes)

/-! ### `scan_code.py` — the analyzer model

The OpenAI client is modelled per tool as a map from the attempt index
(0-based: the value of `retry_count` at the call site) to either the
response text (`choices[0].message.content`) or the text of the raised
exception.  The `random.uniform(0, 1)` draws are modelled as an arbitrary
jitter sequence, constrained to `[0, 1)` where a claim needs it. -/

/-- `max_retries = 3` in `analyze_tool_with_llm`. -/
def max_retries : Nat := 3

/-- `backoff_factor = 2` in `analyze_tool_with_llm`. -/
def backoff_factor : Nat := 2

/-- The terminal state of one tool's analysis.  `success` is the path that
stores the response text under `tool_info["analysis"]` and returns;
`failure` is the last-retry path that stores the error message instead. -/
inductive AnalysisOutcome
  | success (rawText : String)
  | failure (message : String)
deriving DecidableEq

/-- Observable trace of one `analyze_tool_with_llm` run: the outcome, the
list of `time.sleep` durations in order, and the number of completion-API
calls made. -/
structure LlmCallTrace where
  outcome : AnalysisOutcome
  sleeps : List ℚ
  attempts : Nat
deriving DecidableEq

/-- The `while retry_count < max_retries` loop of `analyze_tool_with_llm`.
`fuel` is `max_retries - retry_count`, so `fuel = 0` exactly when the loop
condition fails and the dead fall-through line runs; structural recursion on
`fuel` keeps the definition kernel-computable.  On an exception: if
`retry_count == max_retries - 1` the error message is stored and returned,
otherwise `retry_count` is incremented and the worker sleeps
`backoff_factor ** retry_count + random.uniform(0, 1)` seconds. -/
def retry_loop (client : Nat → Except String String) (jitter : Nat → ℚ) :
    Nat → Nat → LlmCallTrace
  | _, 0 =>
    { outcome := AnalysisOutcome.failure
        ("Failed to analyze after " ++ toString max_retries ++ " attempts")
    , sleeps := [], attempts := 0 }
  | retry_count, fuel + 1 =>
    match client retry_count with
    | Except.ok response =>
      { outcome := AnalysisOutcome.success response, sleeps := [], attempts := 1 }
    | Except.error e =>
      if retry_count = max_retries - 1 then
        { outcome := AnalysisOutcome.failure
            ("Error during analysis after " ++ toString max_retries ++ " attempts: " ++ e)
        , sleeps := [], attempts := 1 }
      else
        let rc := retry_count + 1
        let sleep_time : ℚ := (backoff_factor : ℚ) ^ rc + jitter rc
        let rest := retry_loop client jitter rc fuel
        { outcome := rest.outcome
        , sleeps := sleep_time :: rest.sleeps
        , attempts := rest.attempts + 1 }

/-- `ToolAnalyzer.analyze_tool_with_llm`, entered with `retry_count = 0`. -/
def analyze_tool_with_llm (client : Nat → Except String String) (jitter : Nat → ℚ) :
    LlmCallTrace :=
  retry_loop client jitter 0 max_retries

/-- The audit pass of `analyze_repo` (submit every tool, collect with
`concurrent.futures.as_completed`): `order` is the completion order the
scheduler happens to produce, as indices into `records`; the worker itself
never raises (its `try`/`except` is total), so each completed future
contributes its `(tool, outcome)` pair to `analyzed_tools`. -/
def audit_records (client : ToolInfo → Nat → Except String String)
    (jitter : ToolInfo → Nat → ℚ) (records : List ToolInfo) (order : List Nat) :
    List (ToolInfo × AnalysisOutcome) :=
  order.filterMap (fun i =>
    match records[i]? with
    | some r => some (r, (analyze_tool_with_llm (client r) (jitter r)).outcome)
    | none => none)

/-- Total number of completion-API calls made while auditing `records`
(one worker run per submitted tool, whatever the completion order). -/
def audit_client_calls (client : ToolInfo → Nat → Except String String)
    (jitter : ToolInfo → Nat → ℚ) (records : List ToolInfo) : Nat :=
  (records.map (fun r => (analyze_tool_with_llm (client r) (jitter r)).attempts)).sum

/-- `worker_count = min(10, len(all_tools) + 1)` in `analyze_repo`. -/
def worker_count (n : Nat) : Nat := min 10 (n + 1)

/-- State of the thread pool during one audit pass: counts of not-yet-started,
in-flight, and completed tasks. -/
structure PoolState where
  pending : Nat
  running : Nat
  completed : Nat
deriving DecidableEq

/-- Semantics of `concurrent.futures.ThreadPoolExecutor(w)`: a queued task
starts only while fewer than `w` workers are busy; a busy worker finishes. -/
inductive PoolStep (w : Nat) : PoolState → PoolState → Prop
  | start (s : PoolState) (hr : s.running < w) (hp : 0 < s.pending) :
      PoolStep w s { pending := s.pending - 1, running := s.running + 1, completed := s.completed }
  | finish (s : PoolState) (hr : 0 < s.running) :
      PoolStep w s { pending := s.pending, running := s.running - 1, completed := s.completed + 1 }

/-- States the pool can reach from its initial state. -/
inductive PoolReachable (w : Nat) (init : PoolState) : PoolState → Prop
  | refl : PoolReachable w init init
  | step (s t : PoolState) : PoolReachable w init s → PoolStep w s t → PoolReachable w init t

/-- The language → extension ladder of `ToolAnalyzer.get_code_files`. -/
def language_extension (language : String) : String :=
  if language = "Python" then ".py"
  else if language = "Go" then ".go"
  else if language = "Java" then ".java"
  else if language = "JavaScript" then ".js"
  else if language = "TypeScript" then ".ts"
  else if language = "C" then ".c"
  else if language = "C++" then ".cpp"
  else if language = "C#" then ".cs"
  else if language = "Ruby" then ".rb"
  else if language = "PHP" then ".php"
  else if language = "Swift" then ".swift"
  else if language = "Kotlin" then ".kt"
  else if language = "Rust" then ".rs"
  else if language = "HTML" then ".html"
  else if language = "CSS" then ".css"
  else "." ++ py_lower language

/-- One file yielded by `os.walk`: the directory it was found in (`root`)
and its bare file name. -/
structure WalkFile where
  root : String
  fname : String
deriving DecidableEq

/-- The skip test of `get_code_files` (applied to the file *name*, as in the
source). -/
def skip_walk_file (fname : String) : Bool :=
  str_in "site-packages" fname || str_in "node_modules" fname || str_in ".venv" fname

/-- `ToolAnalyzer.get_code_files` given the `os.walk` listing of the
repository: keep files whose name passes the skip test and ends with the
language's extension, as `os.path.join(root, file)` paths. -/
def get_code_files (walk_files : List WalkFile) (language : String) : List String :=
  let extension := language_extension language
  (walk_files.filter (fun f =>
      !(skip_walk_file f.fname) && str_endswith f.fname extension)).map
    (fun f => f.root ++ "/" ++ f.fname)

/-- External capabilities consumed by `ToolAnalyzer`: the filesystem walk,
file reading + parsing, `os.path.relpath`, the completion client and jitter
source per tool, and the completion order the scheduler produces. -/
structure RepoEnv where
  walk : String → List WalkFile
  file_at : String → Option PyFile
  relpath : String → String → String
  client : ToolInfo → Nat → Except String String
  jitter : ToolInfo → Nat → ℚ
  order_of : List ToolInfo → List Nat

/-- `tool["file_path"] = os.path.relpath(file_path, repo_path)`. -/
def set_file_path (fp : String) (t : ToolInfo) : ToolInfo :=
  { t with file_path := some fp }

/-- The extraction loop of `analyze_repo`: per file, `extract_tools` under a
`try`/`except` that skips the file on a read or parse error; nonempty
results are tagged with the relative path and appended. -/
def extract_all_tools (env : RepoEnv) (repo_path : String) (code_files : List String) :
    List ToolInfo :=
  (code_files.map (fun p =>
    match env.file_at p with
    | none => []
    | some file =>
      match extract_tools file with
      | Except.error _ => []
      | Except.ok tools => tools.map (set_file_path (env.relpath p repo_path)))).flatten

/-- The observable result of one `analyze_repo` call: the result dictionary
(`repo_name`, `tools_count`, `tools`) plus the code files scanned and the
number of completion-API calls made. -/
structure RepoAnalysis where
  repo_name : String
  tools_count : Nat
  tools : List (ToolInfo × AnalysisOutcome)
  code_files : List String
  client_calls : Nat

/-- `ToolAnalyzer.analyze_repo`: list code files, extract every tool, audit
them through the worker pool, and assemble the result dictionary
(`tools_count = len(analyzed_tools)`). -/
def analyze_repo (env : RepoEnv) (repo_path : String) (language : String) : RepoAnalysis :=
  let code_files := get_code_files (env.walk repo_path) language
  let all_tools := extract_all_tools env repo_path code_files
  let analyzed := audit_records env.client env.jitter all_tools (env.order_of all_tools)
  { repo_name := repo_path
  , tools_count := analyzed.length
  , tools := analyzed
  , code_files := code_files
  , client_calls := audit_client_calls env.client env.jitter all_tools }

/-- `analysis_file = f"{repo_path}_tools.json"` in `analyze_repos`. -/
def artifact_path (repo_path : String) : String := repo_path ++ "_tools.json"

/-- Persistent state threaded through the batch run: the report artifacts on
disk (path ↦ serialized content), the cumulative completion-API call count,
and every code file listed for extraction so far. -/
structure BatchState where
  fs : String → Option String
  client_calls : Nat
  scanned_files : List String

/-- One iteration of the `for repo_path in repo_paths` loop of
`analyze_repos`: skip when the artifact already exists, otherwise run
`analyze_repo(repo_path)` — note: with no language argument, so the
`language = 'Python'` default applies — and write the serialized result. -/
def process_repo (env : RepoEnv) (ser : RepoAnalysis → String) (st : BatchState)
    (repo_path : String) : BatchState :=
  if (st.fs (artifact_path repo_path)).isSome then st
  else
    let a := analyze_repo env repo_path "Python"
    { fs := fun p => if p = artifact_path repo_path then some (ser a) else st.fs p
    , client_calls := st.client_calls + a.client_calls
    , scanned_files := st.scanned_files ++ a.code_files }

/-- A row of the CSV manifest as `csv.DictReader` yields it: `none` models a
missing column. -/
structure CsvRow where
  username : Option String
  repo_name : Option String
  language : Option String
deriving DecidableEq

/-- `os.path.join("mcp_repos", f"{username}_{repo_name}")`. -/
def row_repo_path (u r : String) : String := "mcp_repos/" ++ u ++ "_" ++ r

/-- `ToolAnalyzer.read_repos_from_csv`: skip rows missing `username` or
`repo_name`; when a (truthy) language filter is given and the row has a
`language` column, skip rows whose language differs; keep the resolved path
when the directory exists.  `language_filter = none` models a falsy filter
(Python `None` or `""`). -/
def read_repos_from_csv (isdir : String → Bool) (rows : List CsvRow)
    (language_filter : Option String) : List String :=
  rows.filterMap (fun row =>
    match row.username, row.repo_name with
    | some u, some r =>
      let mismatch : Bool :=
        match language_filter, row.language with
        | some lf, some l => l != lf
        | _, _ => false
      if mismatch then none
      else if isdir (row_repo_path u r) then some (row_repo_path u r) else none
    | _, _ => none)

/-- `ToolAnalyzer.analyze_repos`: resolve the manifest rows, then run the
skip-or-analyze-and-persist loop over the resulting repository paths. -/
def analyze_repos (env : RepoEnv) (ser : RepoAnalysis → String) (isdir : String → Bool)
    (rows : List CsvRow) (language_filter : Option String) (st : BatchState) : BatchState :=
  (read_repos_from_csv isdir rows language_filter).foldl (process_repo env ser) st

/-- The parsed command-line arguments of `main` (`--language` defaults to
`"Python"`). -/
structure Args where
  repo : Option String
  csv : Option String
  language : String
  debugFlag : Bool

/-- State visible to `main`: the batch state plus the set of directories
(`os.makedirs("./results", exist_ok=True)` touches only this). -/
structure MainState where
  batch : BatchState
  dirs : List String

/-- Python truthiness of the `--language` string when it reaches the
`language_filter` parameter. -/
def to_filter (s : String) : Option String := if s = "" then none else some s

/-- `main`: reject `--repo` together with `--csv`; create `./results`; in
single-repository mode run `analyze_repo(args.repo, args.language)` and
discard the returned dictionary (only the API calls happen); in CSV mode run
`analyze_repos(args.csv, args.language)`; with neither, do nothing. -/
def main_run (env : RepoEnv) (ser : RepoAnalysis → String) (isdir : String → Bool)
    (rows : List CsvRow) (args : Args) (st : MainState) : MainState :=
  if args.repo.isSome && args.csv.isSome then st
  else
    let st1 : MainState := { st with dirs := "./results" :: st.dirs }
    match args.repo with
    | some repo_path =>
      let a := analyze_repo env repo_path args.language
      { st1 with batch := { st1.batch with
          client_calls := st1.batch.client_calls + a.client_calls
          scanned_files := st1.batch.scanned_files ++ a.code_files } }
    | none =>
      match args.csv with
      | some _ =>
        { st1 with batch := analyze_repos env ser isdir rows (to_filter args.language) st1.batch }
      | none => st1

/-! ### Spec-side definitions for the claims -/

/-- The raw text lines of `source_lines` with 1-indexed numbers
`a, a + 1, …, b` — the claim's phrasing of a decorator's or a function's
"own raw line range". -/
def line_range (source_lines : List String) (a b : Nat) : List String :=
  (List.range' a (b + 1 - a)).map (fun i => source_lines.getD (i - 1) "")

/-- The source span exactly as the claim words it: the newline-join of, in
source order, each decorator's own raw line range taken independently,
followed by the raw text lines from the function's own starting line through
its ending line. -/
def span_per_claim (source_lines : List String) (node : PyFunctionDef) : String :=
  String.intercalate "\n"
    ((node.decorator_list.map (fun d => line_range source_lines d.lineno d.end_lineno)).flatten
      ++ line_range source_lines node.lineno node.end_lineno)

/-- All parameters a Python function definition declares, in declaration
order (positional-only, then positional-or-keyword, then `*args`, then
keyword-only, then `**kwargs`) — the claim's "the function's parameters". -/
def all_parameters (a : PyArguments) : List PyArg :=
  a.posonlyargs ++ a.args ++ a.vararg.toList ++ a.kwonlyargs ++ a.kwarg.toList

/-- Best-effort derivation of the `(score, reason)` fields from an outcome,
for an arbitrary JSON-object reading `parse` (Python's `json.loads` plus
field access is external to the embedding): present exactly when the raw
response text parses, absent on a `failure` outcome.  The `is_valid_json`
helper defined inside `analyze_tool_with_llm` is never called, so no parse
result influences the analyzer's control flow. -/
def derived_fields (parse : String → Option (Int × String)) :
    AnalysisOutcome → Option (Int × String)
  | AnalysisOutcome.success raw => parse raw
  | AnalysisOutcome.failure _ => none

/-! ### Concrete fixtures used by witnesses -/

/-- An empty signature. -/
def sig_empty : PySignature := { parameters := [], return_type := "" }

/-- A minimal tool record. -/
def tool_fix (nm : String) : ToolInfo :=
  { name := nm, source_code := "", docstring := "", signature := sig_empty
  , line_number := 1, file_path := none }

/-- A client that always answers. -/
def ok_client : ToolInfo → Nat → Except String String := fun _ _ => Except.ok "ok"

/-- A zero jitter source for the audit phase. -/
def zero_jit : ToolInfo → Nat → ℚ := fun _ _ => 0

/-- A client failing on attempts 1 and 2 and succeeding on attempt 3. -/
def ff_ok_client : Nat → Except String String :=
  fun n => if n = 2 then Except.ok "benign" else Except.error "timeout"

/-- A zero jitter sequence for a single worker run. -/
def zjit : Nat → ℚ := fun _ => 0

/-- The decorator expression `mcp.tool` (an attribute access). -/
def mcp_tool_attr : PyExpr := PyExpr.attr (PyExpr.name "mcp") "tool"

/-- An `ast.arguments` node with no parameters. -/
def args_empty : PyArguments :=
  { posonlyargs := [], args := [], vararg := none, kwonlyargs := [], kwarg := none }

/-- A function marked through a bare `@mcp.tool` attribute decorator. -/
def c2_fun : PyFunctionDef :=
  { name := "t", decorator_list := [{ expr := mcp_tool_attr, lineno := 1, end_lineno := 1 }]
  , args := args_empty, returns := none, body_docstring := none, lineno := 2, end_lineno := 3 }

/-- Source lines of a four-line file with one decorated function. -/
def c5_lines : List String :=
  ["import x", "@mcp.tool()", "def f():", "    return 1"]

/-- The function node of `c5_lines`: decorator on line 2, definition on
lines 3–4. -/
def c5_fun : PyFunctionDef :=
  { name := "f"
  , decorator_list := [{ expr := PyExpr.call mcp_tool_attr 0, lineno := 2, end_lineno := 2 }]
  , args := args_empty, returns := none, body_docstring := none, lineno := 3, end_lineno := 4 }

/-- A marked function with one positional-or-keyword parameter `a: int` and
one keyword-only parameter `b: str`. -/
def c8_fun : PyFunctionDef :=
  { name := "g"
  , decorator_list := [{ expr := mcp_tool_attr, lineno := 1, end_lineno := 1 }]
  , args := { posonlyargs := [], args := [{ arg := "a", ann := some "int" }], vararg := none
            , kwonlyargs := [{ arg := "b", ann := some "str" }], kwarg := none }
  , returns := some "bool", body_docstring := none, lineno := 2, end_lineno := 3 }

/-- A small repository environment: one `.py` and one `.go` file, no
readable contents, an always-answering client, submission-order completion. -/
def env_fix : RepoEnv :=
  { walk := fun _ => [{ root := "mcp_repos/u_r", fname := "a.py" }
                     , { root := "mcp_repos/u_r", fname := "b.go" }]
  , file_at := fun _ => none
  , relpath := fun p _ => p
  , client := ok_client
  , jitter := zero_jit
  , order_of := fun ts => List.range ts.length }

/-- A trivial serializer. -/
def ser_fix : RepoAnalysis → String := fun _ => "serialized"

/-- A filesystem holding exactly one file. -/
def fs_one (p c : String) : String → Option String :=
  fun q => if q = p then some c else none

/-- A batch state whose filesystem already holds the report artifact of the
repository `mcp_repos/u_r`. -/
def st_fix : BatchState :=
  { fs := fs_one (artifact_path "mcp_repos/u_r") "old", client_calls := 0, scanned_files := [] }

/-- A batch state with an empty filesystem. -/
def st_empty : BatchState := { fs := fun _ => none, client_calls := 0, scanned_files := [] }

/-- Command-line arguments for a single-repository run. -/
def args_fix : Args :=
  { repo := some "repo1", csv := none, language := "Python", debugFlag := false }

/-- A main-loop state over `st_fix` with no directories yet. -/
def ms_fix : MainState := { batch := st_fix, dirs := [] }

/-! ### Shared helper lemmas -/

/-- Every outcome value is a success or a failure. -/
theorem outcome_cases (o : AnalysisOutcome) :
    (∃ s, o = AnalysisOutcome.success s) ∨ ∃ m, o = AnalysisOutcome.failure m := by
  cases o with
  | success s => exact Or.inl ⟨s, rfl⟩
  | failure m => exact Or.inr ⟨m, rfl⟩

/-- When every submitted index is in range, the audit pass produces one pair
per completed future. -/
theorem audit_records_length_of_bounds (client : ToolInfo → Nat → Except String String)
    (jitter : ToolInfo → Nat → ℚ) (records : List ToolInfo) (order : List Nat)
    (h : ∀ i ∈ order, i < records.length) :
    (audit_records client jitter records order).length = order.length := by
  induction order with
  | nil => rfl
  | cons i rest ih =>
    have hi : i < records.length := h i (List.mem_cons_self i rest)
    have hrest : ∀ j ∈ rest, j < records.length := fun j hj => h j (List.mem_cons_of_mem i hj)
    unfold audit_records at ih ⊢
    rw [List.filterMap_cons, List.getElem?_eq_getElem hi]
    simp only [List.length_cons, ih hrest]

/-! ### Claim theorems -/

/-- Claim C2: for every function-definition node (sync or async), a
decorator written as a bare identifier, a dotted attribute access, or a call
whose callee is one of those marks the function exactly when its
structurally resolved dotted qualified name equals the configured marker
`"mcp.tool"`; a call resolves exactly as its callee does, so all three
shapes resolving to the same qualified name are recognized identically, and
sync and async definitions extract identically. -/
theorem C2_marker_resolution_equivalence (f : PyFunctionDef) (callee : PyExpr) (argCount : Nat)
    (h : (∃ i, callee = PyExpr.name i) ∨ ∃ v a, callee = PyExpr.attr v a) :
    (get_decorator_name (PyExpr.call callee argCount) = get_decorator_name callee ∧
      is_mcp_tool_decorator (PyExpr.call callee argCount) = is_mcp_tool_decorator callee) ∧
    (function_is_marked f = true ↔
      ∃ d ∈ f.decorator_list, get_decorator_name d.expr = "mcp.tool") ∧
    (∀ source_lines, extract_tool_functions source_lines [PyNode.functionDef f] =
      extract_tool_functions source_lines [PyNode.asyncFunctionDef f]) ∧
    (∀ source_lines, extract_tool_functions source_lines [PyNode.functionDef f] =
      if function_is_marked f then [make_tool_info source_lines f] else []) := by
  refine ⟨?_, ?_, ?_, ?_⟩
  · rcases h with ⟨i, rfl⟩ | ⟨v, a, rfl⟩ <;>
      exact ⟨rfl, rfl⟩
  · simp only [function_is_marked, List.any_eq_true, is_mcp_tool_decorator, beq_iff_eq]
  · intro source_lines
    rfl
  · intro source_lines
    simp only [extract_tool_functions, node_function, List.filterMap_cons, List.filterMap_nil]
    by_cases hm : function_is_marked f
    · simp [hm]
    · simp [hm]

/-- Claim C2 witness: the attribute decorator `mcp.tool` at a concrete
marked function. -/
theorem C2_marker_resolution_equivalence_witness :
    is_mcp_tool_decorator (PyExpr.call mcp_tool_attr 0) = is_mcp_tool_decorator mcp_tool_attr :=
  (C2_marker_resolution_equivalence c2_fun mcp_tool_attr 0
    (Or.inr ⟨PyExpr.name "mcp", "tool", rfl⟩)).1.2

/-- Claim C1: for every input list of N tool records (including N = 0) and
whatever completion order the scheduler produces, the audit phase returns
exactly N (record, outcome) pairs, each outcome a success or a failure; each
record appears in the output paired with its own worker's outcome, so one
record's analysis failure neither removes it nor disturbs the others. -/
theorem C1_no_drop (client : ToolInfo → Nat → Except String String)
    (jitter : ToolInfo → Nat → ℚ) (records : List ToolInfo) (order : List Nat)
    (h : order.Perm (List.range records.length)) :
    (audit_records client jitter records order).length = records.length ∧
    (∀ p ∈ audit_records client jitter records order,
      (∃ s, p.2 = AnalysisOutcome.success s) ∨ ∃ m, p.2 = AnalysisOutcome.failure m) ∧
    ∀ i (hi : i < records.length),
      (records[i], (analyze_tool_with_llm (client records[i]) (jitter records[i])).outcome)
        ∈ audit_records client jitter records order := by
  have hbound : ∀ i ∈ order, i < records.length := by
    intro i hio
    have : i ∈ List.range records.length := h.mem_iff.mp hio
    exact List.mem_range.mp this
  refine ⟨?_, ?_, ?_⟩
  · rw [audit_records_length_of_bounds client jitter records order hbound,
      h.length_eq, List.length_range]
  · intro p _
    exact outcome_cases p.2
  · intro i hi
    have hio : i ∈ order := h.mem_iff.mpr (List.mem_range.mpr hi)
    unfold audit_records
    rw [List.mem_filterMap]
    exact ⟨i, hio, by rw [List.getElem?_eq_getElem hi]⟩

/-- Claim C1 witness: two records audited in reversed completion order. -/
theorem C1_no_drop_witness :
    (audit_records ok_client zero_jit [tool_fix "a", tool_fix "b"] [1, 0]).length = 2 :=
  (C1_no_drop ok_client zero_jit [tool_fix "a", tool_fix "b"] [1, 0] (by decide)).1

/-- Claim C3 counterexample: a client failing on all three attempts yields
the message `"Error during analysis after 3 attempts: "` plus the last
error, not `"exhausted retries: "` plus the last error as the claim
states. -/
theorem C3_retry_message_counterexample :
    (analyze_tool_with_llm (fun _ => Except.error "boom") zjit).outcome =
      AnalysisOutcome.failure "Error during analysis after 3 attempts: boom" ∧
    (analyze_tool_with_llm (fun _ => Except.error "boom") zjit).outcome ≠
      AnalysisOutcome.failure ("exhausted retries: " ++ "boom") := by
  exact ⟨by decide, by decide⟩

/-- Claim C3 (amended): for every record at most 3 total completion attempts
are made; before 1-indexed retry `i` the worker waits `2^i` seconds plus a
jitter in `[0, 1)`; a client failing on attempts 1 and 2 and succeeding on
attempt 3 yields a success outcome after exactly two backoff waits with base
durations 2 s and 4 s; after all 3 attempts fail the outcome is a failure
with message `"Error during analysis after 3 attempts: "` followed by the
last error. -/
theorem C3_retry_schedule (client : Nat → Except String String) (jitter : Nat → ℚ)
    (hj : ∀ i, 0 ≤ jitter i ∧ jitter i < 1) :
    (analyze_tool_with_llm client jitter).attempts ≤ max_retries ∧
    (∀ e0 e1 s, client 0 = Except.error e0 → client 1 = Except.error e1 →
      client 2 = Except.ok s →
      analyze_tool_with_llm client jitter =
        { outcome := AnalysisOutcome.success s
        , sleeps := [2 + jitter 1, 4 + jitter 2], attempts := 3 }) ∧
    (∀ e0 e1 e2, client 0 = Except.error e0 → client 1 = Except.error e1 →
      client 2 = Except.error e2 →
      analyze_tool_with_llm client jitter =
        { outcome := AnalysisOutcome.failure
            ("Error during analysis after 3 attempts: " ++ e2)
        , sleeps := [2 + jitter 1, 4 + jitter 2], attempts := 3 }) ∧
    (∀ t ∈ (analyze_tool_with_llm client jitter).sleeps,
      (2 ≤ t ∧ t < 3) ∨ (4 ≤ t ∧ t < 5)) := by
  refine ⟨?_, ?_, ?_, ?_⟩
  · cases h0 : client 0 with
    | ok s => simp [analyze_tool_with_llm, retry_loop, max_retries, h0]
    | error e0 =>
      cases h1 : client 1 with
      | ok s => simp [analyze_tool_with_llm, retry_loop, max_retries, h0, h1]
      | error e1 =>
        cases h2 : client 2 with
        | ok s => simp [analyze_tool_with_llm, retry_loop, max_retries, h0, h1, h2]
        | error e2 => simp [analyze_tool_with_llm, retry_loop, max_retries, h0, h1, h2]
  · intro e0 e1 s h0 h1 h2
    simp only [analyze_tool_with_llm, retry_loop, max_retries, backoff_factor, h0, h1, h2]
    norm_num
  · intro e0 e1 e2 h0 h1 h2
    simp only [analyze_tool_with_llm, retry_loop, max_retries, backoff_factor, h0, h1, h2]
    norm_num
    rfl
  · intro t ht
    rcases hj 1 with ⟨hj1a, hj1b⟩
    rcases hj 2 with ⟨hj2a, hj2b⟩
    cases h0 : client 0 with
    | ok s => simp [analyze_tool_with_llm, retry_loop, max_retries, h0] at ht
    | error e0 =>
      cases h1 : client 1 with
      | ok s =>
        simp [analyze_tool_with_llm, retry_loop, max_retries, backoff_factor, h0, h1] at ht
        subst ht
        exact Or.inl ⟨by linarith, by linarith⟩
      | error e1 =>
        cases h2 : client 2 with
        | ok s =>
          simp [analyze_tool_with_llm, retry_loop, max_retries, backoff_factor, h0, h1, h2] at ht
          rcases ht with ht | ht <;> subst ht
          · exact Or.inl ⟨by linarith, by linarith⟩
          · exact Or.inr ⟨by linarith, by linarith⟩
        | error e2 =>
          simp [analyze_tool_with_llm, retry_loop, max_retries, backoff_factor, h0, h1, h2] at ht
          rcases ht with ht | ht <;> subst ht
          · exact Or.inl ⟨by linarith, by linarith⟩
          · exact Or.inr ⟨by linarith, by linarith⟩

/-- Claim C3 witness: the fail-fail-succeed client makes all 3 attempts. -/
theorem C3_retry_schedule_witness :
    (analyze_tool_with_llm ff_ok_client zjit).attempts ≤ max_retries :=
  (C3_retry_schedule ff_ok_client zjit (fun _ => ⟨le_rfl, zero_lt_one⟩)).1

/-- A pool started below its worker bound never exceeds it. -/
theorem pool_running_le (w : Nat) (init : PoolState) (s : PoolState)
    (h : PoolReachable w init s) (h0 : init.running ≤ w) : s.running ≤ w := by
  induction h with
  | refl => exact h0
  | step s t _ hstep ih =>
    cases hstep with
    | start hr hp => exact hr
    | finish hr => exact le_trans (Nat.sub_le _ _) ih

/-- Claim C4: during one audit pass over `n` records the pool is created
with `min(10, n + 1)` workers, so no reachable moment has more than
`min(maxConcurrency, n + 1)` completion calls in flight (the configured
`maxConcurrency` being the hard-coded 10); in particular with more than 10
records never more than 10 concurrent calls. -/
theorem C4_concurrency_bound (n : Nat) (s : PoolState)
    (h : PoolReachable (worker_count n) { pending := n, running := 0, completed := 0 } s) :
    s.running ≤ worker_count n ∧ s.running ≤ min 10 (n + 1) ∧ (10 < n → s.running ≤ 10) := by
  have hle := pool_running_le (worker_count n) _ s h (Nat.zero_le _)
  exact ⟨hle, hle, fun _ => le_trans hle (Nat.min_le_left _ _)⟩

/-- Claim C4 witness: after starting one task of twelve, the bound holds. -/
theorem C4_concurrency_bound_witness :
    ({ pending := 11, running := 1, completed := 0 } : PoolState).running ≤ worker_count 12 :=
  (C4_concurrency_bound 12 { pending := 11, running := 1, completed := 0 }
    (PoolReachable.step _ _ PoolReachable.refl
      (PoolStep.start { pending := 12, running := 0, completed := 0 } (by decide) (by decide)))).1

/-- A drop-take slice with in-range bounds lists exactly the elements at the
1-indexed positions `i + 1, …, i + n`. -/
theorem drop_take_eq_range'_map (ls : List String) :
    ∀ i n : Nat, i + n ≤ ls.length →
      (ls.drop i).take n = (List.range' (i + 1) n).map (fun j => ls.getD (j - 1) "") := by
  intro i n
  induction n generalizing i with
  | zero => intro _; simp
  | succ n ih =>
    intro h
    have hi : i < ls.length := by omega
    rw [List.drop_eq_getElem_cons hi, List.range'_succ, List.take_succ_cons, List.map_cons]
    have h1 : ls.getD (i + 1 - 1) "" = ls[i] := by
      simp [List.getD_eq_getElem?_getD, List.getElem?_eq_getElem hi]
    rw [h1]
    congr 1
    have := ih (i + 1) (by omega)
    simpa using this

/-- On in-range 1-indexed bounds `a ≤ b`, the Python slice `[a - 1 : b]` is
the claim's "raw text lines numbered a through b". -/
theorem pySlice_eq_line_range (ls : List String) (a b : Nat)
    (ha : 1 ≤ a) (hab : a ≤ b) (hb : b ≤ ls.length) :
    pySlice ls (a - 1) b = line_range ls a b := by
  unfold pySlice line_range
  have h1 : (a - 1) + (b - (a - 1)) ≤ ls.length := by omega
  rw [drop_take_eq_range'_map ls (a - 1) (b - (a - 1)) h1]
  have h2 : a - 1 + 1 = a := by omega
  have h3 : b - (a - 1) = b + 1 - a := by omega
  rw [h2, h3]

/-- Claim C5: for every function whose line metadata is in range (as the
Python `ast` guarantees for the parsed file), the recorded source span
equals the newline-join of each decorator's own raw line range, in source
order and taken independently, followed by the function's own lines from its
starting line through its ending line; the recorded start line is the
function definition's 1-indexed line, not the first decorator's. -/
theorem C5_source_span (source_lines : List String) (f : PyFunctionDef)
    (hf1 : 1 ≤ f.lineno) (hf2 : f.lineno ≤ f.end_lineno)
    (hf3 : f.end_lineno ≤ source_lines.length)
    (hd : ∀ d ∈ f.decorator_list,
      1 ≤ d.lineno ∧ d.lineno ≤ d.end_lineno ∧ d.end_lineno ≤ source_lines.length) :
    get_function_source source_lines f = span_per_claim source_lines f ∧
    (make_tool_info source_lines f).source_code = span_per_claim source_lines f ∧
    (make_tool_info source_lines f).line_number = f.lineno ∧
    (∀ d, f.decorator_list.head? = some d → d.lineno ≠ f.lineno →
      (make_tool_info source_lines f).line_number ≠ d.lineno) := by
  have hdec : f.decorator_list.map (fun d => pySlice source_lines (d.lineno - 1) d.end_lineno) =
      f.decorator_list.map (fun d => line_range source_lines d.lineno d.end_lineno) := by
    apply List.map_congr_left
    intro d hdm
    rcases hd d hdm with ⟨h1, h2, h3⟩
    exact pySlice_eq_line_range source_lines d.lineno d.end_lineno h1 h2 h3
  have hspan : get_function_source source_lines f = span_per_claim source_lines f := by
    simp only [get_function_source, span_per_claim]
    rw [hdec, pySlice_eq_line_range source_lines f.lineno f.end_lineno hf1 hf2 hf3]
  refine ⟨hspan, hspan, rfl, ?_⟩
  intro d _ hne hEq
  exact hne hEq.symm

/-- Claim C5 witness: the four-line fixture file, decorator on line 2,
definition on lines 3–4. -/
theorem C5_source_span_witness :
    get_function_source c5_lines c5_fun = span_per_claim c5_lines c5_fun :=
  (C5_source_span c5_lines c5_fun (by decide) (by decide) (by decide) (by decide)).1

/-- Claim C6: a completion call that returns a response on the first attempt
yields a success outcome whose raw text is exactly the response, with one
attempt and no backoff wait, whatever the response contains (in particular a
malformed, non-JSON response causes no retry); the derived score/reason of
the outcome are the best-effort parse of that raw text — present exactly
when it parses as a JSON object, absent otherwise. -/
theorem C6_success_outcome (client : Nat → Except String String) (jitter : Nat → ℚ)
    (s : String) (h : client 0 = Except.ok s)
    (parse : String → Option (Int × String)) :
    analyze_tool_with_llm client jitter =
      { outcome := AnalysisOutcome.success s, sleeps := [], attempts := 1 } ∧
    derived_fields parse (analyze_tool_with_llm client jitter).outcome = parse s := by
  have hrun : analyze_tool_with_llm client jitter =
      { outcome := AnalysisOutcome.success s, sleeps := [], attempts := 1 } := by
    simp [analyze_tool_with_llm, retry_loop, max_retries, h]
  exact ⟨hrun, by rw [hrun]; simp [derived_fields]⟩

/-- Claim C6 witness: a non-JSON response is still a one-attempt success. -/
theorem C6_success_outcome_witness :
    analyze_tool_with_llm (fun _ => Except.ok "not a json object") zjit =
      { outcome := AnalysisOutcome.success "not a json object", sleeps := [], attempts := 1 } :=
  (C6_success_outcome (fun _ => Except.ok "not a json object") zjit "not a json object" rfl
    (fun _ => none)).1

/-- Claim C7: for every manifest entry whose report artifact already exists
at `<repoIdentifier>_tools.json`, the batch loop skips it entirely — no
extraction is attempted, zero completion-client calls are made, and the
artifact's contents are left unchanged; a one-entry manifest resolving to
such a repository leaves the whole batch state untouched. -/
theorem C7_resumability (env : RepoEnv) (ser : RepoAnalysis → String) (st : BatchState)
    (repo_path : String) (content : String)
    (h : st.fs (artifact_path repo_path) = some content) :
    process_repo env ser st repo_path = st ∧
    (process_repo env ser st repo_path).fs (artifact_path repo_path) = some content ∧
    (process_repo env ser st repo_path).client_calls = st.client_calls ∧
    (process_repo env ser st repo_path).scanned_files = st.scanned_files ∧
    (∀ u r isdir, row_repo_path u r = repo_path →
      analyze_repos env ser isdir
        [{ username := some u, repo_name := some r, language := none }] none st = st) := by
  have hskip : process_repo env ser st repo_path = st := by
    simp [process_repo, h]
  refine ⟨hskip, ?_, ?_, ?_, ?_⟩
  · rw [hskip]; exact h
  · rw [hskip]
  · rw [hskip]
  · intro u r isdir hpath
    by_cases hd : isdir (row_repo_path u r) = true
    · have hread : read_repos_from_csv isdir
          [{ username := some u, repo_name := some r, language := none }] none =
          [row_repo_path u r] := by
        simp [read_repos_from_csv, List.filterMap_cons, hd]
      unfold analyze_repos
      rw [hread, hpath]
      simpa using hskip
    · have hread : read_repos_from_csv isdir
          [{ username := some u, repo_name := some r, language := none }] none = [] := by
        simp [read_repos_from_csv, List.filterMap_cons, hd]
      unfold analyze_repos
      rw [hread]
      rfl

/-- Claim C7 witness: the fixture state already holds the artifact. -/
theorem C7_resumability_witness :
    process_repo env_fix ser_fix st_fix "mcp_repos/u_r" = st_fix :=
  (C7_resumability env_fix ser_fix st_fix "mcp_repos/u_r" "old" (by decide)).1

/-- Claim C8 counterexample: a function with a positional-or-keyword
parameter `a: int` and a keyword-only parameter `b: str` declares two
parameters, but the extracted signature lists only `a` — keyword-only
parameters are dropped, so the signature does not list "the function's
parameters". -/
theorem C8_kwonly_dropped_counterexample :
    (get_function_signature c8_fun).parameters = [("a", "int")] ∧
    (all_parameters c8_fun.args).map PyArg.arg = ["a", "b"] ∧
    (get_function_signature c8_fun).parameters.map Prod.fst ≠
      (all_parameters c8_fun.args).map PyArg.arg := by
  exact ⟨by decide, by decide, by decide⟩

/-- Claim C8 (amended): the extracted signature lists the function's
positional-or-keyword parameters (the `ast` node's `args.args` group;
positional-only, keyword-only, `*args` and `**kwargs` are not included)
in declaration order as (name, declared type) pairs, the declared type being
the unparsed source text of the annotation when present and the empty string
otherwise; the return type likewise comes from the return annotation. -/
theorem C8_signature_extraction (f : PyFunctionDef) :
    (get_function_signature f).parameters =
      f.args.args.map (fun a => (a.arg, a.ann.getD "")) ∧
    (get_function_signature f).parameters.map Prod.fst = f.args.args.map PyArg.arg ∧
    (∀ (i : Nat) (a : PyArg), f.args.args[i]? = some a →
      (get_function_signature f).parameters[i]? =
        some (a.arg, match a.ann with | some t => t | none => "")) ∧
    (∀ t, f.returns = some t → (get_function_signature f).return_type = t) ∧
    (f.returns = none → (get_function_signature f).return_type = "") := by
  refine ⟨?_, ?_, ?_, ?_, ?_⟩
  · simp only [get_function_signature]
    apply List.map_congr_left
    intro a _
    cases h : a.ann <;> simp [h]
  · simp only [get_function_signature, List.map_map]
    rfl
  · intro i a ha
    simp only [get_function_signature, List.getElem?_map, ha, Option.map_some']
  · intro t ht
    simp [get_function_signature, ht]
  · intro ht
    simp [get_function_signature, ht]

/-- Claim C8 (amended) witness: evaluated at the two-parameter fixture. -/
theorem C8_signature_extraction_witness :
    (get_function_signature c8_fun).parameters =
      c8_fun.args.args.map (fun a => (a.arg, a.ann.getD "")) :=
  (C8_signature_extraction c8_fun).1

/-- Claim C9: in batch (CSV) mode the per-repository analysis always scans
`.py` files — the loop invokes the analysis without a language, so the
`--language` value never reaches file selection; it only filters which
manifest rows are selected (rows whose language tag differs from the filter
are dropped, matching rows with an existing directory are kept). -/
theorem C9_batch_language_fixed (env : RepoEnv) (ser : RepoAnalysis → String)
    (isdir : String → Bool) (rows : List CsvRow) (lf : Option String) (st : BatchState) :
    analyze_repos env ser isdir rows lf st =
      (read_repos_from_csv isdir rows lf).foldl (process_repo env ser) st ∧
    (∀ st' p, (st'.fs (artifact_path p)).isSome = false →
      (process_repo env ser st' p).scanned_files =
        st'.scanned_files ++
          ((env.walk p).filter (fun f => !(skip_walk_file f.fname) &&
              str_endswith f.fname ".py")).map (fun f => f.root ++ "/" ++ f.fname)) ∧
    (∀ u r l lfv, l ≠ lfv →
      read_repos_from_csv isdir
        [{ username := some u, repo_name := some r, language := some l }] (some lfv) = []) ∧
    (∀ u r l, isdir (row_repo_path u r) = true →
      read_repos_from_csv isdir
        [{ username := some u, repo_name := some r, language := some l }] (some l) =
        [row_repo_path u r]) := by
  refine ⟨rfl, ?_, ?_, ?_⟩
  · intro st' p hfs
    simp only [process_repo, hfs, Bool.false_eq_true, if_false]
    rfl
  · intro u r l lfv hne
    simp [read_repos_from_csv, List.filterMap_cons, bne_iff_ne, hne]
  · intro u r l hd
    simp [read_repos_from_csv, List.filterMap_cons, hd]

/-- Claim C9 witness: on an empty filesystem the fixture repository's audit
scans exactly its `.py` file, with the filter given as `none`. -/
theorem C9_batch_language_fixed_witness :
    (process_repo env_fix ser_fix st_empty "mcp_repos/u_r").scanned_files =
      st_empty.scanned_files ++
        ((env_fix.walk "mcp_repos/u_r").filter (fun f => !(skip_walk_file f.fname) &&
            str_endswith f.fname ".py")).map (fun f => f.root ++ "/" ++ f.fname) :=
  (C9_batch_language_fixed env_fix ser_fix (fun _ => true) [] none st_empty).2.1 st_empty
    "mcp_repos/u_r" rfl

/-- Claim C10: a single-repository (`--repo`) run computes the repository
analysis in memory — the completion calls happen — but persists nothing: the
report-artifact filesystem is pointwise unchanged (only the `./results`
directory is created). -/
theorem C10_single_repo_no_persist (env : RepoEnv) (ser : RepoAnalysis → String)
    (isdir : String → Bool) (rows : List CsvRow) (args : Args) (st : MainState) (r : String)
    (hr : args.repo = some r) (hc : args.csv = none) :
    (∀ p, (main_run env ser isdir rows args st).batch.fs p = st.batch.fs p) ∧
    (main_run env ser isdir rows args st).batch.client_calls =
      st.batch.client_calls + (analyze_repo env r args.language).client_calls ∧
    (main_run env ser isdir rows args st).dirs = "./results" :: st.dirs := by
  have hmain : main_run env ser isdir rows args st =
      { batch := { st.batch with
          client_calls := st.batch.client_calls + (analyze_repo env r args.language).client_calls
          scanned_files := st.batch.scanned_files ++ (analyze_repo env r args.language).code_files }
      , dirs := "./results" :: st.dirs } := by
    simp only [main_run, hr, hc]
    rfl
  rw [hmain]
  exact ⟨fun p => rfl, rfl, rfl⟩

/-- Claim C10 witness: the fixture single-repository run only adds the
results directory. -/
theorem C10_single_repo_no_persist_witness :
    (main_run env_fix ser_fix (fun _ => true) [] args_fix ms_fix).dirs =
      "./results" :: ms_fix.dirs :=
  (C10_single_repo_no_persist env_fix ser_fix (fun _ => true) [] args_fix ms_fix "repo1"
    rfl rfl).2.2

end McpScan
